import Mathlib

set_option autoImplicit false

/-!
Verification development for the mongoproxy repository.

The embedding below translates, from the Go sources:

* `handleConnection` (the per-connection frame loop) from the proxy entry
  file (`src/unnamed/part_002`);
* `MongodModule.Process` — the backend execution stage — from
  `src/modules/mongod/module.go` (the mongo-driver version of the module,
  lines 882-1318, which is the version the repository builds);
* `Config.AsConnectionString` from `src/server/config.go`;
* the pipeline builder and the namespace parser, which live in packages
  (`server.BuildPipeline`, `messages.ParseNamespace`) whose sources are not
  in the repository snapshot; those two are modelled from the specification
  and are marked as such in their doc comments.

Documents (`bson.D` values) are round-tripped by the proxy unchanged, so they
are modelled by an opaque countable payload type.  Byte buffers produced by
the codec are likewise opaque.
-/

deriving instance DecidableEq for Except

namespace Mongoproxy

/-! ## Wire op codes

The `messages` package that defines the op-code constants is not part of the
snapshot; the values below are the MongoDB legacy wire-protocol values the
spec refers to (Query/Insert/Update/Delete/GetMore/KillCursors/Reply).  The
connection loop only compares the header op code against `OP_UPDATE`,
`OP_INSERT` and `OP_DELETE`, so only the distinctness of the constants
matters to the theorems. -/

def OP_REPLY : Int := 1

def OP_UPDATE : Int := 2001

def OP_INSERT : Int := 2002

def OP_QUERY : Int := 2004

def OP_GET_MORE : Int := 2005

def OP_DELETE : Int := 2006

def OP_KILL_CURSORS : Int := 2007

/-- Fixed frame header: length is implicit in the decoded body and not
tracked here. -/
structure MsgHeader where
  requestID : Int
  responseTo : Int
  opCode : Int
  deriving DecidableEq

/-- One iteration's worth of input to `handleConnection`: what
`messages.Decode` produced, and — for a decoded frame — what
`messages.Encode` would produce for the pipeline's response and whether
`conn.Write` would succeed.  `eof` is `io.EOF` while awaiting a new header;
`decodeErr` is any other decode error. -/
inductive ConnEvent where
  | eof
  | decodeErr
  | frame (header : MsgHeader) (enc : Except Unit (List Nat)) (writeOk : Bool)
  deriving DecidableEq

/-- Observable outcome of the connection loop: the byte buffers handed to
`conn.Write` in order, the number of errors logged, and whether
`conn.Close` was reached. -/
structure ConnOut where
  writes : List (List Nat)
  loggedErrors : Nat
  closed : Bool
  deriving DecidableEq

/-- Shallow embedding of `handleConnection`: decode a frame, run the
pipeline, encode; suppress the reply entirely for update/insert/delete
frames (even an encode error is ignored for those), otherwise fail the
connection on encode error, write the bytes, and fail the connection on a
write error.  An exhausted event list leaves the loop still awaiting input. -/
def connLoop : List ConnEvent → ConnOut
  | [] => ⟨[], 0, false⟩
  | ConnEvent.eof :: _ => ⟨[], 0, true⟩
  | ConnEvent.decodeErr :: _ => ⟨[], 1, true⟩
  | ConnEvent.frame header enc writeOk :: rest =>
      if header.opCode = OP_UPDATE ∨ header.opCode = OP_INSERT ∨
          header.opCode = OP_DELETE then
        connLoop rest
      else
        match enc with
        | Except.error _ => ⟨[], 1, true⟩
        | Except.ok bytes =>
            if writeOk then
              let out := connLoop rest
              ⟨bytes :: out.writes, out.loggedErrors, out.closed⟩
            else
              ⟨[bytes], 1, true⟩

/-! ## Backend execution stage (`MongodModule.Process`)

Embedding of the mongo-driver version of the module
(`src/modules/mongod/module.go`, lines 882-1318).  The lazy client
connection and `StartSession` run before the request dispatch and do not
depend on the request; the embedding models the dispatch with an
established client, the backend being an oracle consulted per operation.
The `messages` request structures are not in the snapshot; they are
modelled with exactly the fields the module reads from them, opaque
payloads standing for the untyped BSON parts. -/

/-- Opaque BSON document payload. -/
abbrev BDoc := Nat

/-- Backend (mongo driver) errors as the module distinguishes them: a typed
`*mongo.CommandError` with code and message, the sentinel
`mongo.ErrNilCursor`, or any other (untyped) error. -/
inductive MErr where
  | commandError (code : Int) (msg : String)
  | nilCursor
  | other
  deriving DecidableEq

/-- Backend reply document, projected to the fields the module reads:
`ok`, `code`, `errmsg`, `n`, `nModified`; each field holds the value the
module's conversion would extract (the conversion default when the key is
absent). -/
structure Reply where
  ok : Int
  code : Int
  errmsg : String
  n : Int
  nModified : Int
  deriving DecidableEq

/-- Command request (`messages.CommandRequest`), reduced to the fields the
module reads; `payload` stands for the rest of the command document. -/
structure CommandReq where
  Database : String
  CommandName : String
  payload : Nat
  deriving DecidableEq

/-- Find request, reduced to the fields the module reads (`SortDoc` stands
for the Go `Sort` field, whose name is reserved in Lean). -/
structure FindReq where
  Database : String
  Collection : String
  Filter : Nat
  Limit : Int
  Skip : Int
  Projection : Option Nat
  SortDoc : Option Nat
  deriving DecidableEq

/-- Insert request; `payload` stands for the documents to insert. -/
structure InsertReq where
  Database : String
  payload : Nat
  deriving DecidableEq

/-- Update request; `payload` stands for the update document. -/
structure UpdateReq where
  Database : String
  payload : Nat
  deriving DecidableEq

/-- Delete request; `payload` stands for the delete document. -/
structure DeleteReq where
  Database : String
  payload : Nat
  deriving DecidableEq

/-- GetMore request, reduced to the fields the module reads. -/
structure GetMoreReq where
  Database : String
  Collection : String
  CursorID : Int
  BatchSize : Int
  deriving DecidableEq

/-- Command document handed to the backend `RunCommand` call: either the
BSON of a request (`X.ToBSON()`), or the literal `isMaster` document the
module substitutes for an `ismaster` command. -/
inductive CmdDoc where
  | commandDoc (c : CommandReq)
  | isMasterDoc
  | insertDoc (i : InsertReq)
  | updateDoc (u : UpdateReq)
  | deleteDoc (d : DeleteReq)
  deriving DecidableEq

/-- Backend cursor as consumed by the module: `Next` yields `docs` in
order and then returns false, at which point `Err` reports `fin`
(`none` is clean exhaustion). -/
structure Cursor where
  docs : List BDoc
  fin : Option MErr
  deriving DecidableEq

/-- Backend oracle: what each backend call would return. -/
structure Backend where
  runCommand : String → CmdDoc → Except MErr Reply
  findCol : FindReq → Except MErr Cursor
  getMoreCursor : GetMoreReq → Except MErr Cursor

/-- Typed request union, as produced by `req.Type()` dispatch followed by
the `messages.ToXRequest` conversion; `none` in a variant is a conversion
failure. -/
inductive Requester where
  | command (c : Option CommandReq)
  | find (f : Option FindReq)
  | insert (i : Option InsertReq)
  | update (u : Option UpdateReq)
  | delete (d : Option DeleteReq)
  | getMore (g : Option GetMoreReq)
  | msg
  | killCursors
  | unknown
  deriving DecidableEq

/-- Responses the module writes, projected to the fields the claims are
about (write-error and upsert lists are carried through unchanged and are
not modelled). -/
inductive MResponse where
  | commandR (Reply : Reply)
  | findR (Database Collection : String) (Documents : List BDoc)
  | insertR (N : Int)
  | updateR (N NModified : Int)
  | deleteR (N : Int)
  | getMoreR (CursorID : Int) (Database Collection : String)
      (Documents : List BDoc) (InvalidCursor : Bool)
  deriving DecidableEq

/-- Responder calls, in order: `res.Write` and `res.Error`. -/
inductive RAction where
  | write (r : MResponse)
  | error (code : Int) (msg : String)
  deriving DecidableEq

/-- Backend operations performed, in order (the call counter of the spec's
read-only test). -/
inductive BCall where
  | runCommandCall (db : String) (doc : CmdDoc)
  | findCall (f : FindReq)
  | getMoreCall (g : GetMoreReq)
  deriving DecidableEq

/-- Observable outcome of one `Process` call: responder actions, backend
calls, whether `next` was invoked, and whether the Go code would panic
(nil-cursor dereference paths). -/
structure ProcOut where
  actions : List RAction
  calls : List BCall
  nextCalled : Bool
  panicked : Bool
  deriving DecidableEq

/-- Outcome of the bounded `cur.Next` loops in the Find and GetMore cases. -/
inductive LoopOut where
  | collected (docs : List BDoc)
  | errored (e : MErr)
  deriving DecidableEq

/-- Bounded cursor iteration `for i := 0; i < n; i++ { ok := cur.Next(); ... }`:
collect up to `n` documents; when the cursor exhausts first, report its
final error if any, otherwise stop cleanly. -/
def cursorTake : Nat → List BDoc → Option MErr → List BDoc → LoopOut
  | 0, _, _, acc => LoopOut.collected acc
  | _ + 1, [], none, acc => LoopOut.collected acc
  | _ + 1, [], some e, _ => LoopOut.errored e
  | n + 1, d :: rest, fin, acc => cursorTake n rest fin (acc ++ [d])

/-- Reply the module synthesizes for a `createIndexes` command
(`reply["ok"] = 1`, `reply["code"] = 0`, other fields absent). -/
def createIndexesReply : Reply := ⟨1, 0, "", -1, -1⟩

/-- Command document actually sent for a command request: the module
replaces an `ismaster` command body with the literal `isMaster` document. -/
def commandDocFor (c : CommandReq) : CmdDoc :=
  if c.CommandName = "ismaster" then CmdDoc.isMasterDoc else CmdDoc.commandDoc c

/-- Shallow embedding of `MongodModule.Process` (mongo-driver version).
Conversion failures log and call `next`; `createIndexes` is answered
locally; a zero `ok` in a reply becomes `res.Error(code, errmsg)`; a typed
command error on `RunCommand` becomes `res.Error(code, msg)` and any other
error there becomes `res.Error(-1, "Unknown error")`; Find iterates up to a
positive limit or collects all; read-only mode short-circuits
insert/update/delete with sentinel `-1` counts before any backend call; the
insert/update/delete backend-error paths type-assert the stale conversion
error (which is nil) and therefore record no response error; GetMore
distinguishes `ErrNilCursor` as an `InvalidCursor` response.  The paths on
which the Go code dereferences a nil cursor are flagged `panicked`. -/
def process (ReadOnly : Bool) (b : Backend) (req : Requester) : ProcOut :=
  match req with
  | Requester.command none => ⟨[], [], true, false⟩
  | Requester.command (some c) =>
      if c.CommandName = "createIndexes" then
        ⟨[RAction.write (MResponse.commandR createIndexesReply)], [], false, false⟩
      else
        let doc := commandDocFor c
        match b.runCommand c.Database doc with
        | Except.error (MErr.commandError code msg) =>
            ⟨[RAction.error code msg],
              [BCall.runCommandCall c.Database doc], true, false⟩
        | Except.error _ =>
            ⟨[RAction.error (-1) "Unknown error"],
              [BCall.runCommandCall c.Database doc], true, false⟩
        | Except.ok r =>
            if r.ok = 0 then
              ⟨[RAction.error r.code r.errmsg],
                [BCall.runCommandCall c.Database doc], true, false⟩
            else
              ⟨[RAction.write (MResponse.commandR r)],
                [BCall.runCommandCall c.Database doc], true, false⟩
  | Requester.find none => ⟨[], [], true, false⟩
  | Requester.find (some f) =>
      match b.findCol f with
      | Except.error (MErr.commandError code msg) =>
          ⟨[RAction.error code msg], [BCall.findCall f], false, true⟩
      | Except.error _ =>
          ⟨[], [BCall.findCall f], false, true⟩
      | Except.ok cur =>
          if 0 < f.Limit then
            match cursorTake f.Limit.toNat cur.docs cur.fin [] with
            | LoopOut.collected docs =>
                ⟨[RAction.write (MResponse.findR f.Database f.Collection docs)],
                  [BCall.findCall f], true, false⟩
            | LoopOut.errored (MErr.commandError code msg) =>
                ⟨[RAction.error code msg], [BCall.findCall f], true, false⟩
            | LoopOut.errored _ =>
                ⟨[], [BCall.findCall f], true, false⟩
          else
            match cur.fin with
            | some (MErr.commandError code msg) =>
                ⟨[RAction.error code msg], [BCall.findCall f], true, false⟩
            | some _ =>
                ⟨[], [BCall.findCall f], true, false⟩
            | none =>
                ⟨[RAction.write (MResponse.findR f.Database f.Collection cur.docs)],
                  [BCall.findCall f], true, false⟩
  | Requester.insert none => ⟨[], [], true, false⟩
  | Requester.insert (some i) =>
      if ReadOnly then
        ⟨[RAction.write (MResponse.insertR (-1))], [], false, false⟩
      else
        match b.runCommand i.Database (CmdDoc.insertDoc i) with
        | Except.error _ =>
            ⟨[], [BCall.runCommandCall i.Database (CmdDoc.insertDoc i)], true, false⟩
        | Except.ok r =>
            if r.ok = 0 then
              ⟨[RAction.error r.code r.errmsg],
                [BCall.runCommandCall i.Database (CmdDoc.insertDoc i)], true, false⟩
            else
              ⟨[RAction.write (MResponse.insertR r.n)],
                [BCall.runCommandCall i.Database (CmdDoc.insertDoc i)], true, false⟩
  | Requester.update none => ⟨[], [], true, false⟩
  | Requester.update (some u) =>
      if ReadOnly then
        ⟨[RAction.write (MResponse.updateR (-1) (-1))], [], false, false⟩
      else
        match b.runCommand u.Database (CmdDoc.updateDoc u) with
        | Except.error _ =>
            ⟨[], [BCall.runCommandCall u.Database (CmdDoc.updateDoc u)], true, false⟩
        | Except.ok r =>
            if r.ok = 0 then
              ⟨[RAction.error r.code r.errmsg],
                [BCall.runCommandCall u.Database (CmdDoc.updateDoc u)], true, false⟩
            else
              ⟨[RAction.write (MResponse.updateR r.n r.nModified)],
                [BCall.runCommandCall u.Database (CmdDoc.updateDoc u)], true, false⟩
  | Requester.delete none => ⟨[], [], true, false⟩
  | Requester.delete (some d) =>
      if ReadOnly then
        ⟨[RAction.write (MResponse.deleteR (-1))], [], false, false⟩
      else
        match b.runCommand d.Database (CmdDoc.deleteDoc d) with
        | Except.error _ =>
            ⟨[], [BCall.runCommandCall d.Database (CmdDoc.deleteDoc d)], true, false⟩
        | Except.ok r =>
            if r.ok = 0 then
              ⟨[RAction.error r.code r.errmsg],
                [BCall.runCommandCall d.Database (CmdDoc.deleteDoc d)], true, false⟩
            else
              ⟨[RAction.write (MResponse.deleteR r.n)],
                [BCall.runCommandCall d.Database (CmdDoc.deleteDoc d)], true, false⟩
  | Requester.getMore none => ⟨[], [], true, false⟩
  | Requester.getMore (some g) =>
      match b.getMoreCursor g with
      | Except.error (MErr.commandError code msg) =>
          ⟨[RAction.error code msg], [BCall.getMoreCall g], true, true⟩
      | Except.error _ =>
          ⟨[], [BCall.getMoreCall g], true, true⟩
      | Except.ok cur =>
          match cursorTake g.BatchSize.toNat cur.docs cur.fin [] with
          | LoopOut.collected docs =>
              ⟨[RAction.write (MResponse.getMoreR g.CursorID g.Database
                  g.Collection docs false)], [BCall.getMoreCall g], true, false⟩
          | LoopOut.errored MErr.nilCursor =>
              ⟨[RAction.write (MResponse.getMoreR g.CursorID g.Database
                  g.Collection [] true)], [BCall.getMoreCall g], true, false⟩
          | LoopOut.errored (MErr.commandError code msg) =>
              ⟨[RAction.error code msg], [BCall.getMoreCall g], true, false⟩
          | LoopOut.errored MErr.other =>
              ⟨[], [BCall.getMoreCall g], true, false⟩
  | Requester.msg => ⟨[], [], true, false⟩
  | Requester.killCursors => ⟨[], [], true, false⟩
  | Requester.unknown => ⟨[], [], true, false⟩

/-! ## Server configuration (`src/server/config.go`) -/

/-- Connection configuration, restricted to the fields
`AsConnectionString` reads (`Timeout` and `Port` do not appear in the
produced string). -/
structure Config where
  Scheme : String
  Hosts : String
  TLS : Bool
  Database : String
  Username : String
  Password : String
  OptParams : String
  ReadOnly : Bool
  deriving DecidableEq

/-- Shallow embedding of `Config.AsConnectionString`, following the Go
statement sequence of `url +=` appends. -/
def AsConnectionString (c : Config) : String :=
  let url := if c.Scheme ≠ "" then c.Scheme ++ "://" else "mongodb://"
  let url :=
    if c.Username ≠ "" then
      url ++ c.Username ++ (if c.Password ≠ "" then ":" ++ c.Password else "") ++ "@"
    else url
  let url := url ++ c.Hosts ++ "/" ++ c.Database
  let url := if c.TLS then url ++ "?ssl=true" else url ++ "?ssl=false"
  if c.OptParams ≠ "" then url ++ c.OptParams else url

/-- Connection-string shape as the specification words it: the scheme part
(defaulting to `mongodb://`), then the credential segment present exactly
when the username is non-empty (with the password part present exactly when
the password is also non-empty), then hosts, a slash, the database name,
exactly one ssl query fragment matching the TLS flag, and finally the extra
parameters.  Stated separately from `AsConnectionString` so that the claim
is a genuine comparison of the code against the spec's description. -/
def connectionStringSpec (c : Config) : String :=
  (if c.Scheme = "" then "mongodb://" else c.Scheme ++ "://")
    ++ (if c.Username = "" then ""
        else c.Username ++ (if c.Password = "" then "" else ":" ++ c.Password) ++ "@")
    ++ c.Hosts ++ "/" ++ c.Database
    ++ (if c.TLS then "?ssl=true" else "?ssl=false")
    ++ c.OptParams

/-! ## Namespace parsing -/

/-- Helper for `ParseNamespace`: split a character list at the first
separator, returning the part before it and everything after it. -/
def splitAtFirstDot : List Char → Option (List Char × List Char)
  | [] => none
  | ch :: rest =>
      if ch = '.' then some ([], rest)
      else
        match splitAtFirstDot rest with
        | some (d, coll) => some (ch :: d, coll)
        | none => none

/-- Modelled from the spec: `messages.ParseNamespace` is not under `src/`
(the wire codec package is absent from the snapshot); per the spec, a
namespace string is split on the first separator into database and
collection, and a string with no separator is a decode-time error
(`none`). -/
def ParseNamespace (s : String) : Option (String × String) :=
  match splitAtFirstDot s.data with
  | some (d, coll) => some (⟨d⟩, ⟨coll⟩)
  | none => none

/-! ## Pipeline builder -/

/-- Pipeline stage over a request/response state `σ`: a stage receives the
continuation for the remainder of the chain and yields its own entry
point. -/
def PStageFn (σ : Type) : Type := (σ → σ) → σ → σ

/-- Modelled from the spec: `server.BuildPipeline` is not under `src/`
(only its callers and the `Module` interface are); per the spec, the
builder walks the configured stage list and returns one entry function in
which stage i's continuation is stage i+1's entry point and the terminal
stage's continuation is a no-op. -/
def BuildPipeline {σ : Type} : List (PStageFn σ) → σ → σ
  | [] => id
  | stage :: rest => stage (BuildPipeline rest)

/-- Shared state of the spec's pipeline-composition test: a counter and
the trace of observed counter values. -/
structure CounterState where
  counter : Nat
  trace : List Nat
  deriving DecidableEq

/-- Stage that literally does what the claim's test description says:
increment the shared counter (observing it) both before and after calling
its continuation. -/
def incIncStage : PStageFn CounterState :=
  fun next s =>
    let s1 : CounterState := ⟨s.counter + 1, s.trace ++ [s.counter + 1]⟩
    let s2 := next s1
    ⟨s2.counter + 1, s2.trace ++ [s2.counter + 1]⟩

/-- Stage realizing the palindromic trace the claim predicts: increment and
observe the shared counter before calling the continuation, observe and
decrement it after. -/
def depthStage : PStageFn CounterState :=
  fun next s =>
    let s1 : CounterState := ⟨s.counter + 1, s.trace ++ [s.counter + 1]⟩
    let s2 := next s1
    ⟨s2.counter - 1, s2.trace ++ [s2.counter]⟩

/-- Ascending run of counter values `c+1, c+2, ..., c+n`. -/
def upFrom (c : Nat) : Nat → List Nat
  | 0 => []
  | n + 1 => (c + 1) :: upFrom (c + 1) n

/-! ## Concrete fixtures used by witnesses and counterexamples -/

/-- Backend whose Find cursor yields three documents and exhausts
cleanly. -/
def wFindBackend : Backend :=
  ⟨fun _ _ => Except.ok ⟨1, 0, "", -1, -1⟩,
   fun _ => Except.ok ⟨[10, 20, 30], none⟩,
   fun _ => Except.ok ⟨[], none⟩⟩

/-- Find request with limit 2 used by the C2 witness. -/
def wFindReq : FindReq := ⟨"db", "coll", 0, 2, 0, none, none⟩

/-- Backend whose Find cursor fails with an untyped error at the first
iteration. -/
def cexFindBackend : Backend :=
  ⟨fun _ _ => Except.ok ⟨1, 0, "", -1, -1⟩,
   fun _ => Except.ok ⟨[], some MErr.other⟩,
   fun _ => Except.ok ⟨[], none⟩⟩

/-- Backend whose Find cursor fails with a typed command error after one
document. -/
def wFindErrBackend : Backend :=
  ⟨fun _ _ => Except.ok ⟨1, 0, "", -1, -1⟩,
   fun _ => Except.ok ⟨[42], some (MErr.commandError 11 "boom")⟩,
   fun _ => Except.ok ⟨[], none⟩⟩

/-- Backend whose GetMore cursor fails with an untyped error. -/
def cexGetMoreBackend : Backend :=
  ⟨fun _ _ => Except.ok ⟨1, 0, "", -1, -1⟩,
   fun _ => Except.ok ⟨[], none⟩,
   fun _ => Except.ok ⟨[], some MErr.other⟩⟩

/-- Backend whose GetMore cursor yields one document and exhausts
cleanly. -/
def wGetMoreBackend : Backend :=
  ⟨fun _ _ => Except.ok ⟨1, 0, "", -1, -1⟩,
   fun _ => Except.ok ⟨[], none⟩,
   fun _ => Except.ok ⟨[5], none⟩⟩

/-- GetMore request with batch size 2 used by the C3 witness. -/
def wGetMoreReq : GetMoreReq := ⟨"db", "coll", 7, 2⟩

/-- Backend whose command reply reports a zero `ok` with a code and
message. -/
def wCommandBackend : Backend :=
  ⟨fun _ _ => Except.ok ⟨0, 59, "no such command", -1, -1⟩,
   fun _ => Except.ok ⟨[], none⟩,
   fun _ => Except.ok ⟨[], none⟩⟩

/-- Command request used by the C6 witness. -/
def wCommandReq : CommandReq := ⟨"db", "count", 0⟩

/-- C1: a decoded frame whose op code is Insert, Update or Delete causes
zero bytes to be written and the loop proceeds to the next frame unchanged;
for any other op code whose encode succeeds, the encoded bytes are handed to
the connection write. -/
theorem connLoop_suppresses_mutations_and_writes_others
    (header : MsgHeader) (enc : Except Unit (List Nat)) (writeOk : Bool)
    (rest : List ConnEvent) (bytes : List Nat) :
    ((header.opCode = OP_INSERT ∨ header.opCode = OP_UPDATE ∨
        header.opCode = OP_DELETE) →
      connLoop (ConnEvent.frame header enc writeOk :: rest) = connLoop rest) ∧
    (¬ (header.opCode = OP_INSERT ∨ header.opCode = OP_UPDATE ∨
        header.opCode = OP_DELETE) →
      enc = Except.ok bytes →
      (connLoop (ConnEvent.frame header enc writeOk :: rest)).writes
        = bytes :: (if writeOk then (connLoop rest).writes else [])) := by
  constructor
  · intro hmut
    have hmut' : header.opCode = OP_UPDATE ∨ header.opCode = OP_INSERT ∨
        header.opCode = OP_DELETE := by tauto
    simp [connLoop, hmut']
  · intro hnot henc
    have hnot' : ¬ (header.opCode = OP_UPDATE ∨ header.opCode = OP_INSERT ∨
        header.opCode = OP_DELETE) := by tauto
    subst henc
    cases writeOk <;> simp [connLoop, hnot']

/-- Witness for C1 at concrete frames: an insert frame is skipped, a query
frame's encoded bytes are written. -/
theorem connLoop_suppresses_mutations_and_writes_others_witness :
    connLoop (ConnEvent.frame ⟨3, 0, OP_INSERT⟩ (Except.ok [7, 7]) true :: [])
        = connLoop [] ∧
    (connLoop (ConnEvent.frame ⟨4, 0, OP_QUERY⟩ (Except.ok [9]) true :: [])).writes
        = [9] :: (if true then (connLoop ([] : List ConnEvent)).writes else []) := by
  constructor
  · exact (connLoop_suppresses_mutations_and_writes_others ⟨3, 0, OP_INSERT⟩
      (Except.ok [7, 7]) true [] [7, 7]).1 (Or.inl rfl)
  · exact (connLoop_suppresses_mutations_and_writes_others ⟨4, 0, OP_QUERY⟩
      (Except.ok [9]) true [] [9]).2 (by decide) rfl

/-- C5: end-of-stream while awaiting a new frame closes the connection with
no error logged; a non-EOF decode error logs exactly one error and closes;
in both cases no bytes are written and no further event is consumed
(the result does not depend on the rest of the stream). -/
theorem connLoop_eof_and_decode_error (rest : List ConnEvent) :
    connLoop (ConnEvent.eof :: rest) = ⟨[], 0, true⟩ ∧
    connLoop (ConnEvent.decodeErr :: rest) = ⟨[], 1, true⟩ :=
  ⟨rfl, rfl⟩

/-- Bounded iteration over a cleanly exhausting cursor collects a prefix of
the documents. -/
theorem cursorTake_no_error (n : Nat) :
    ∀ (docs acc : List BDoc),
      cursorTake n docs none acc = LoopOut.collected (acc ++ docs.take n) := by
  induction n with
  | zero => intro docs acc; simp [cursorTake]
  | succ n ih =>
    intro docs acc
    cases docs with
    | nil => simp [cursorTake]
    | cons d rest =>
      calc cursorTake (n + 1) (d :: rest) none acc
          = cursorTake n rest none (acc ++ [d]) := rfl
        _ = LoopOut.collected ((acc ++ [d]) ++ rest.take n) := ih rest (acc ++ [d])
        _ = LoopOut.collected (acc ++ (d :: rest).take (n + 1)) := by simp

/-- Bounded iteration that finds enough documents never consults the
cursor's final status. -/
theorem cursorTake_enough (n : Nat) :
    ∀ (docs acc : List BDoc) (fin : Option MErr), n ≤ docs.length →
      cursorTake n docs fin acc = LoopOut.collected (acc ++ docs.take n) := by
  induction n with
  | zero => intro docs acc fin _; simp [cursorTake]
  | succ n ih =>
    intro docs acc fin h
    cases docs with
    | nil => simp at h
    | cons d rest =>
      have h' : n ≤ rest.length := by
        simp only [List.length_cons] at h
        omega
      calc cursorTake (n + 1) (d :: rest) fin acc
          = cursorTake n rest fin (acc ++ [d]) := rfl
        _ = LoopOut.collected ((acc ++ [d]) ++ rest.take n) := ih rest (acc ++ [d]) fin h'
        _ = LoopOut.collected (acc ++ (d :: rest).take (n + 1)) := by simp

/-- Bounded iteration over a cursor that errors before yielding enough
documents reports that error. -/
theorem cursorTake_exhaust_error (n : Nat) :
    ∀ (docs acc : List BDoc) (e : MErr), docs.length < n →
      cursorTake n docs (some e) acc = LoopOut.errored e := by
  induction n with
  | zero => intro docs acc e h; exact absurd h (Nat.not_lt_zero _)
  | succ n ih =>
    intro docs acc e h
    cases docs with
    | nil => rfl
    | cons d rest =>
      have h' : rest.length < n := by
        simp only [List.length_cons] at h
        omega
      calc cursorTake (n + 1) (d :: rest) (some e) acc
          = cursorTake n rest (some e) (acc ++ [d]) := rfl
        _ = LoopOut.errored e := ih rest (acc ++ [d]) e h'

/-- C2: a Find with a positive limit L against a cleanly exhausting backend
result set of M documents writes exactly min(L, M) documents and no error
(the only responder action is the single document write), and a Find with
no positive limit writes all M documents in one sweep. -/
theorem find_limit_returns_min (ro : Bool) (b : Backend) (f : FindReq)
    (docs : List BDoc) (hb : b.findCol f = Except.ok ⟨docs, none⟩) :
    (0 < f.Limit →
      process ro b (Requester.find (some f)) =
        ⟨[RAction.write (MResponse.findR f.Database f.Collection
            (docs.take f.Limit.toNat))], [BCall.findCall f], true, false⟩ ∧
      (docs.take f.Limit.toNat).length = min f.Limit.toNat docs.length) ∧
    (¬ 0 < f.Limit →
      process ro b (Requester.find (some f)) =
        ⟨[RAction.write (MResponse.findR f.Database f.Collection docs)],
          [BCall.findCall f], true, false⟩) := by
  constructor
  · intro hL
    refine ⟨?_, by simp⟩
    simp only [process, hb]
    rw [if_pos hL, cursorTake_no_error]
    simp
  · intro hL
    simp only [process, hb]
    rw [if_neg hL]

/-- Witness for C2: limit 2 against three documents returns the first two;
no limit returns all three. -/
theorem find_limit_returns_min_witness :
    process false wFindBackend (Requester.find (some wFindReq)) =
      ⟨[RAction.write (MResponse.findR "db" "coll" [10, 20])],
        [BCall.findCall wFindReq], true, false⟩ ∧
    process false wFindBackend
        (Requester.find (some ⟨"db", "coll", 0, 0, 0, none, none⟩)) =
      ⟨[RAction.write (MResponse.findR "db" "coll" [10, 20, 30])],
        [BCall.findCall ⟨"db", "coll", 0, 0, 0, none, none⟩], true, false⟩ := by
  constructor
  · have h := (find_limit_returns_min false wFindBackend wFindReq
      [10, 20, 30] rfl).1 (by decide)
    simpa using h.1
  · have h := (find_limit_returns_min false wFindBackend
      ⟨"db", "coll", 0, 0, 0, none, none⟩ [10, 20, 30] rfl).2 (by decide)
    simpa using h

/-- C4: with read-only mode enabled, an insert, update or delete request
writes the sentinel response (N = -1, and NModified = -1 for update) with
an empty backend call log — the backend is never invoked — and without
continuing the pipeline. -/
theorem readOnly_short_circuits (b : Backend) (i : InsertReq) (u : UpdateReq)
    (d : DeleteReq) :
    process true b (Requester.insert (some i)) =
      ⟨[RAction.write (MResponse.insertR (-1))], [], false, false⟩ ∧
    process true b (Requester.update (some u)) =
      ⟨[RAction.write (MResponse.updateR (-1) (-1))], [], false, false⟩ ∧
    process true b (Requester.delete (some d)) =
      ⟨[RAction.write (MResponse.deleteR (-1))], [], false, false⟩ := by
  refine ⟨?_, ?_, ?_⟩ <;> simp [process]

/-- C6: for a command (other than the locally answered `createIndexes`),
a backend reply with a zero `ok` indicator becomes a structured command
error with the reply's code and message; a typed transport error becomes a
command error with its code and message; any other transport error becomes
the generic error (-1, "Unknown error"). -/
theorem command_error_mapping (ro : Bool) (b : Backend) (c : CommandReq)
    (hname : c.CommandName ≠ "createIndexes") :
    (∀ r : Reply, b.runCommand c.Database (commandDocFor c) = Except.ok r →
      r.ok = 0 →
      process ro b (Requester.command (some c)) =
        ⟨[RAction.error r.code r.errmsg],
          [BCall.runCommandCall c.Database (commandDocFor c)], true, false⟩) ∧
    (∀ code msg, b.runCommand c.Database (commandDocFor c)
        = Except.error (MErr.commandError code msg) →
      process ro b (Requester.command (some c)) =
        ⟨[RAction.error code msg],
          [BCall.runCommandCall c.Database (commandDocFor c)], true, false⟩) ∧
    (∀ e : MErr, b.runCommand c.Database (commandDocFor c) = Except.error e →
      (∀ code msg, e ≠ MErr.commandError code msg) →
      process ro b (Requester.command (some c)) =
        ⟨[RAction.error (-1) "Unknown error"],
          [BCall.runCommandCall c.Database (commandDocFor c)], true, false⟩) := by
  refine ⟨?_, ?_, ?_⟩
  · intro r hb hok
    simp only [process, if_neg hname, commandDocFor] at *
    rw [hb]
    simp [hok]
  · intro code msg hb
    simp only [process, if_neg hname, commandDocFor] at *
    rw [hb]
  · intro e hb hne
    simp only [process, if_neg hname, commandDocFor] at *
    cases e with
    | commandError code msg => exact absurd rfl (hne code msg)
    | nilCursor => rw [hb]
    | other => rw [hb]

/-- Witness for C6: a `count` command answered with `ok = 0`, code 59 and
message "no such command" produces exactly that command error. -/
theorem command_error_mapping_witness :
    process false wCommandBackend (Requester.command (some wCommandReq)) =
      ⟨[RAction.error 59 "no such command"],
        [BCall.runCommandCall "db" (commandDocFor wCommandReq)], true, false⟩ := by
  have h := (command_error_mapping false wCommandBackend wCommandReq
    (by decide)).1 ⟨0, 59, "no such command", -1, -1⟩ rfl rfl
  simpa using h

/-- C7 counterexample: a Find whose backend iteration fails with an untyped
error records no responder action at all — in particular the response does
not carry the structured command error the claim promises. -/
theorem find_untyped_error_no_command_error :
    (process false cexFindBackend
        (Requester.find (some ⟨"db", "coll", 0, 1, 0, none, none⟩))).actions
      = [] := by
  decide

/-- C7 (amended): a Find whose backend iteration yields an error aborts the
fetch with no document payload written; the response carries a structured
command error with the backend's code and message when the error is a typed
command error, and no responder action is recorded for an untyped error. -/
theorem find_iteration_error_aborts (ro : Bool) (b : Backend) (f : FindReq)
    (docs : List BDoc) (e : MErr)
    (hb : b.findCol f = Except.ok ⟨docs, some e⟩) :
    (0 < f.Limit → docs.length < f.Limit.toNat →
      process ro b (Requester.find (some f)) =
        ⟨(match e with
          | MErr.commandError code msg => [RAction.error code msg]
          | _ => []), [BCall.findCall f], true, false⟩) ∧
    (¬ 0 < f.Limit →
      process ro b (Requester.find (some f)) =
        ⟨(match e with
          | MErr.commandError code msg => [RAction.error code msg]
          | _ => []), [BCall.findCall f], true, false⟩) := by
  constructor
  · intro hL hlen
    simp only [process, hb]
    rw [if_pos hL, cursorTake_exhaust_error _ _ _ _ hlen]
    cases e <;> rfl
  · intro hL
    simp only [process, hb]
    rw [if_neg hL]
    cases e <;> rfl

/-- Witness for C7: a typed command error (11, "boom") after one document
with limit 2 aborts the fetch as exactly that command error. -/
theorem find_iteration_error_aborts_witness :
    process false wFindErrBackend
        (Requester.find (some ⟨"db", "coll", 0, 2, 0, none, none⟩)) =
      ⟨[RAction.error 11 "boom"],
        [BCall.findCall ⟨"db", "coll", 0, 2, 0, none, none⟩], true, false⟩ := by
  have h := (find_iteration_error_aborts false wFindErrBackend
    ⟨"db", "coll", 0, 2, 0, none, none⟩ [42] (MErr.commandError 11 "boom")
    rfl).1 (by decide) (by decide)
  simpa using h

/-- C3 counterexample: a GetMore whose backend iteration fails with an
untyped error produces none of the three claimed outcomes — the responder
records no action at all (no document batch, no invalid-cursor response,
and no command error). -/
theorem getMore_untyped_error_none_of_three :
    (process false cexGetMoreBackend
        (Requester.getMore (some ⟨"db", "coll", 7, 2⟩))).actions = [] := by
  decide

/-- C3 (amended): a GetMore against a cursor the backend re-attaches
produces: a batch of min(batch size, available) documents with no error
when the cursor exhausts cleanly or fills the batch; the distinguished
invalid-cursor response when the cursor is invalidated (the nil-cursor
sentinel); a command error with the backend's code and message unchanged
when the backend error is typed; and no responder action for an untyped
backend error. -/
theorem getMore_outcomes (ro : Bool) (b : Backend) (g : GetMoreReq)
    (docs : List BDoc) (fin : Option MErr)
    (hb : b.getMoreCursor g = Except.ok ⟨docs, fin⟩) :
    (fin = none →
      process ro b (Requester.getMore (some g)) =
        ⟨[RAction.write (MResponse.getMoreR g.CursorID g.Database g.Collection
            (docs.take g.BatchSize.toNat) false)], [BCall.getMoreCall g],
          true, false⟩) ∧
    (g.BatchSize.toNat ≤ docs.length →
      process ro b (Requester.getMore (some g)) =
        ⟨[RAction.write (MResponse.getMoreR g.CursorID g.Database g.Collection
            (docs.take g.BatchSize.toNat) false)], [BCall.getMoreCall g],
          true, false⟩) ∧
    (docs.length < g.BatchSize.toNat → fin = some MErr.nilCursor →
      process ro b (Requester.getMore (some g)) =
        ⟨[RAction.write (MResponse.getMoreR g.CursorID g.Database g.Collection
            [] true)], [BCall.getMoreCall g], true, false⟩) ∧
    (∀ code msg, docs.length < g.BatchSize.toNat →
      fin = some (MErr.commandError code msg) →
      process ro b (Requester.getMore (some g)) =
        ⟨[RAction.error code msg], [BCall.getMoreCall g], true, false⟩) ∧
    (docs.length < g.BatchSize.toNat → fin = some MErr.other →
      process ro b (Requester.getMore (some g)) =
        ⟨[], [BCall.getMoreCall g], true, false⟩) := by
  refine ⟨?_, ?_, ?_, ?_, ?_⟩
  · intro hfin
    subst hfin
    simp only [process, hb]
    rw [cursorTake_no_error]
    simp
  · intro hlen
    simp only [process, hb]
    rw [cursorTake_enough _ _ _ _ hlen]
    simp
  · intro hlen hfin
    subst hfin
    simp only [process, hb]
    rw [cursorTake_exhaust_error _ _ _ _ hlen]
  · intro code msg hlen hfin
    subst hfin
    simp only [process, hb]
    rw [cursorTake_exhaust_error _ _ _ _ hlen]
  · intro hlen hfin
    subst hfin
    simp only [process, hb]
    rw [cursorTake_exhaust_error _ _ _ _ hlen]

/-- Witness for C3: a cursor holding one remaining document, fetched with
batch size 2, returns that single document (fewer than the batch size)
with no error. -/
theorem getMore_outcomes_witness :
    process false wGetMoreBackend (Requester.getMore (some wGetMoreReq)) =
      ⟨[RAction.write (MResponse.getMoreR 7 "db" "coll" [5] false)],
        [BCall.getMoreCall wGetMoreReq], true, false⟩ := by
  have h := (getMore_outcomes false wGetMoreBackend wGetMoreReq [5] none
    rfl).1 rfl
  simpa using h

/-- Character lists without the separator are rejected by the namespace
splitter. -/
theorem splitAtFirstDot_no_dot :
    ∀ l : List Char, (∀ ch ∈ l, ch ≠ '.') → splitAtFirstDot l = none := by
  intro l
  induction l with
  | nil => intro _; rfl
  | cons ch rest ih =>
    intro h
    have hch : ch ≠ '.' := h ch (List.mem_cons_self ch rest)
    have hrest := ih (fun x hx => h x (List.mem_cons_of_mem ch hx))
    simp [splitAtFirstDot, hch, hrest]

/-- C9: namespace parsing splits on the first separator only — "db.coll"
gives (db, coll), "db.sub.coll" gives (db, sub.coll) — and every string
containing no separator is a decode-time error. -/
theorem parseNamespace_splits_on_first_separator :
    ParseNamespace "db.coll" = some ("db", "coll") ∧
    ParseNamespace "db.sub.coll" = some ("db", "sub.coll") ∧
    ∀ s : String, (∀ ch ∈ s.data, ch ≠ '.') → ParseNamespace s = none := by
  refine ⟨by decide, by decide, ?_⟩
  intro s h
  simp [ParseNamespace, splitAtFirstDot_no_dot s.data h]

/-- Witness for C9: a separator-free string is a decode error. -/
theorem parseNamespace_splits_witness : ParseNamespace "dbcoll" = none :=
  parseNamespace_splits_on_first_separator.2.2 "dbcoll" (by decide)

/-- C8 counterexample: with the mechanism the claim states — a stage that
increments the shared counter, observing it, both before and after calling
`next` — a one-stage pipeline observes the trace [1, 2], not the [1, 1]
that the claimed sequence 1,…,N,N,…,1 predicts at N = 1. -/
theorem pipeline_incinc_trace_not_palindromic :
    (BuildPipeline [incIncStage] ⟨0, []⟩).trace = [1, 2] ∧
    (BuildPipeline [incIncStage] ⟨0, []⟩).trace ≠ [1, 1] := by
  decide

/-- Running n copies of the depth-observing stage from counter c appends
the ascending run c+1,…,c+n and then its mirror image, restoring the
counter. -/
theorem buildPipeline_depthStage (n : Nat) :
    ∀ (c : Nat) (t : List Nat),
      BuildPipeline (List.replicate n depthStage) ⟨c, t⟩ =
        ⟨c, (t ++ upFrom c n) ++ (upFrom c n).reverse⟩ := by
  induction n with
  | zero => intro c t; simp [BuildPipeline, upFrom]
  | succ n ih =>
    intro c t
    show depthStage (BuildPipeline (List.replicate n depthStage)) ⟨c, t⟩ = _
    simp only [depthStage]
    rw [ih (c + 1) (t ++ [c + 1])]
    simp [upFrom, List.append_assoc]

/-- C8 (amended): the builder composes the stage list so that a stage's
continuation is the entry point of the remaining stages and the terminal
continuation is the identity; consequently N stages that each increment and
observe the shared counter before calling `next`, then observe and
decrement it after, produce the palindromic trace 1,2,…,N,N,…,2,1 for one
request. -/
theorem pipeline_composition (σ : Type) (stage : PStageFn σ)
    (rest : List (PStageFn σ)) (n : Nat) :
    BuildPipeline (stage :: rest) = stage (BuildPipeline rest) ∧
    BuildPipeline ([] : List (PStageFn σ)) = id ∧
    BuildPipeline (List.replicate n depthStage) ⟨0, []⟩ =
      ⟨0, upFrom 0 n ++ (upFrom 0 n).reverse⟩ := by
  refine ⟨rfl, rfl, ?_⟩
  have h := buildPipeline_depthStage n 0 []
  simpa using h

/-- C10: the produced connection string has exactly the shape the spec
describes — it begins with the configured scheme and "://" (defaulting to
"mongodb://"), contains the credential segment exactly when the username is
non-empty (with the password part exactly when the password is also
non-empty), and carries exactly one ssl query fragment, matching the TLS
flag, immediately after the database name and before the extra
parameters. -/
theorem asConnectionString_shape (c : Config) :
    AsConnectionString c = connectionStringSpec c ∧
    ∃ rest : String, AsConnectionString c =
      (if c.Scheme = "" then "mongodb://" else c.Scheme ++ "://") ++ rest := by
  have h : AsConnectionString c = connectionStringSpec c := by
    simp only [AsConnectionString, connectionStringSpec]
    by_cases hs : c.Scheme = "" <;>
      by_cases hu : c.Username = "" <;>
        by_cases hp : c.Password = "" <;>
          by_cases ht : c.TLS <;>
            by_cases ho : c.OptParams = "" <;>
              simp [hs, hu, hp, ht, ho, String.append_assoc,
                String.append_empty, String.empty_append]
  refine ⟨h, ⟨(if c.Username = "" then ""
      else c.Username ++ (if c.Password = "" then "" else ":" ++ c.Password) ++ "@")
      ++ (c.Hosts ++ ("/" ++ (c.Database
      ++ ((if c.TLS then "?ssl=true" else "?ssl=false") ++ c.OptParams)))), ?_⟩⟩
  rw [h]
  simp [connectionStringSpec, String.append_assoc]

end Mongoproxy
